import Mathlib

/-!
Verification of the EE Lab Grouping System (src/main.py, with src/main1.py as
the historical variant the design notes describe).  The definitions below are a
shallow embedding of the registration validators, the duplicate checker, the
grouping engine, the atomic document write, and the backup/restore subsystem.
Text handled character-by-character by the Python code is modelled as
`List Char`; machine-level details (UTF-8 positions) are irrelevant here.
-/

/- ───────────────────────── Python string primitives ─────────────────────────
   ASCII semantics of str.strip / str.upper / str.lower / str.split and of the
   character classes used by the regexes in src/main.py. -/

/-- Whitespace as recognised by Python str.strip and str.split:
space, tab, newline, vertical tab, form feed, carriage return. -/
def pyIsSpace (c : Char) : Bool :=
  decide (c.toNat = 32 ∨ (9 ≤ c.toNat ∧ c.toNat ≤ 13))

/-- ASCII uppercase conversion, the effect of Python str.upper on the
characters this application handles. -/
def pyToUpper (c : Char) : Char :=
  if 97 ≤ c.toNat ∧ c.toNat ≤ 122 then Char.ofNat (c.toNat - 32) else c

/-- ASCII lowercase conversion, the effect of Python str.lower. -/
def pyToLower (c : Char) : Char :=
  if 65 ≤ c.toNat ∧ c.toNat ≤ 90 then Char.ofNat (c.toNat + 32) else c

/-- The regex class \d restricted to ASCII: the decimal digits 0-9. -/
def isAsciiDigit (c : Char) : Bool :=
  decide (48 ≤ c.toNat ∧ c.toNat ≤ 57)

/-- The regex class [A-Za-z]. -/
def isAsciiLetter (c : Char) : Bool :=
  decide ((65 ≤ c.toNat ∧ c.toNat ≤ 90) ∨ (97 ≤ c.toNat ∧ c.toNat ≤ 122))

/-- Python raw.strip(): drop leading and trailing whitespace. -/
def pyStrip (cs : List Char) : List Char :=
  (((cs.dropWhile pyIsSpace).reverse.dropWhile pyIsSpace)).reverse

/-- Python s.upper(), mapped over the characters. -/
def pyUpperStr (cs : List Char) : List Char := cs.map pyToUpper

/-- Python s.lower(), mapped over the characters. -/
def pyLowerStr (cs : List Char) : List Char := cs.map pyToLower

/-- One step of Python str.split(): processed right to left, a whitespace
character closes the current word, any other character extends it. -/
def splitStep (c : Char) (acc : List (List Char)) : List (List Char) :=
  if pyIsSpace c then
    match acc with
    | [] => []
    | w :: ws => if w.isEmpty then w :: ws else [] :: w :: ws
  else
    match acc with
    | [] => [[c]]
    | w :: ws => (c :: w) :: ws

/-- Python raw.split(): split on whitespace runs, producing no empty words. -/
def pySplit (cs : List Char) : List (List Char) :=
  (cs.foldr splitStep []).filter (fun w => !w.isEmpty)

/-- Python " ".join(raw.strip().split()), the whitespace collapsing done by
validate_name in src/main.py line 338. -/
def collapseWS (cs : List Char) : List Char :=
  List.intercalate [' '] (pySplit cs)

/- ───────────────────────────── Validators ─────────────────────────────
   src/main.py lines 329-343. -/

/-- The characters of the literal STUBTECH. -/
def stubtechChars : List Char := ['S', 'T', 'U', 'B', 'T', 'E', 'C', 'H']

/-- The regex ^STUBTECH\d{6}$ from src/main.py line 332: exactly the literal
STUBTECH followed by exactly six digits. -/
def matchIndexPattern (cs : List Char) : Prop :=
  cs.length = 14 ∧ cs.take 8 = stubtechChars ∧ ∀ c ∈ cs.drop 8, isAsciiDigit c = true

instance (cs : List Char) : Decidable (matchIndexPattern cs) := by
  unfold matchIndexPattern; exact inferInstance

/-- validate_index from src/main.py lines 329-334: clean the raw input with
strip().upper(), accept iff the regex matches, returning the cleaned index.
The error-message branch of the Python pair is modelled as none. -/
def validate_index (raw : List Char) : Option (List Char) :=
  let cleaned := pyStrip (pyUpperStr raw)
  if matchIndexPattern cleaned then some cleaned else none

/-- The tail character class [A-Za-z .'\-] of the name regex in src/main.py
line 341: letters, space, period, apostrophe, hyphen. -/
def isNameTailChar (c : Char) : Bool :=
  isAsciiLetter c || c == ' ' || c == '.' || c == Char.ofNat 39 || c == '-'

/-- The regex ^[A-Za-z][A-Za-z .'\-]{1,}$ from src/main.py line 341: a leading
letter followed by at least one character of the tail class. -/
def matchNamePattern (cs : List Char) : Bool :=
  match cs with
  | [] => false
  | c :: rest => isAsciiLetter c && !rest.isEmpty && rest.all isNameTailChar

/-- validate_name from src/main.py lines 337-343: collapse whitespace, reject
names shorter than two characters or failing the regex, otherwise return the
collapsed name.  The error messages are modelled as none. -/
def validate_name (raw : List Char) : Option (List Char) :=
  let cleaned := collapseWS raw
  if cleaned.length < 2 then none
  else if matchNamePattern cleaned then some cleaned else none

/-- Modelled from the spec (section 4.1), for comparison with the code: a name
is valid when it has length at least 2, starts with a letter, and contains
only letters, spaces, hyphens, and apostrophes (note: no period). -/
def specNameOK (cs : List Char) : Bool :=
  decide (2 ≤ cs.length) &&
  (match cs with | [] => false | c :: _ => isAsciiLetter c) &&
  cs.all (fun c => isAsciiLetter c || c == ' ' || c == '-' || c == Char.ofNat 39)

/-- The acceptance predicate validate_name actually decides, on the collapsed
name: length at least 2, a leading letter, and every character a letter,
space, hyphen, apostrophe, or period. -/
def codeNameOK (cs : List Char) : Bool :=
  decide (2 ≤ cs.length) &&
  (match cs with | [] => false | c :: _ => isAsciiLetter c) &&
  cs.all isNameTailChar

/-- Modelled from the spec (section 4.1) for the index claim: the normalized
index is exactly the literal STUBTECH followed by exactly six decimal
digits. -/
def specIndexOK (cs : List Char) : Prop :=
  ∃ ds : List Char, cs = stubtechChars ++ ds ∧ ds.length = 6 ∧
    ∀ c ∈ ds, isAsciiDigit c = true

/- ─────────────────────── Registration and deduplication ───────────────────────
   src/main.py lines 346-354 and the submission handler, lines 755-789. -/

/-- A stored StudentRecord (students.json entry, src/main.py lines 774-779). -/
structure Student where
  name : List Char
  index : List Char
  registeredAt : String
deriving DecidableEq

/-- Minimum students required before grouping, src/main.py line 263. -/
def MIN_STUDENTS : Nat := 3

/-- check_duplicate from src/main.py lines 346-354: a conflict when the
submitted (already normalized) index equals a stored index, or the lowercased
submitted name equals a lowercased stored name. -/
def check_duplicate (students : List Student) (index name : List Char) : Bool :=
  students.any (fun s => s.index == index) ||
  students.any (fun s => pyLowerStr s.name == pyLowerStr name)

/-- Outcome of a registration attempt. -/
inductive RegOutcome where
  | validationError
  | duplicate
  | registered
deriving DecidableEq

/-- The registration submission handler of src/main.py lines 755-780: validate
the name, then the index; on any validation failure reject without writing; on
a duplicate reject without writing; otherwise append the new record to the
stored student list. -/
def register (students : List Student) (rawName rawIndex : List Char)
    (ts : String) : RegOutcome × List Student :=
  match validate_name rawName, validate_index rawIndex with
  | some n, some i =>
      if check_duplicate students i n then (.duplicate, students)
      else (.registered, students ++ [⟨n, i, ts⟩])
  | _, _ => (.validationError, students)

/- ───────────────────────────── Grouping engine ─────────────────────────────
   src/main.py lines 361-390.  The uniformly random shuffle produced by
   random.sample(students, len(students)) is modelled by quantifying over an
   arbitrary permutation `pool` of the student list. -/

/-- One output record of the grouping engine: the copied participant fields
plus the attached group label, lab name, and empty marks. -/
structure GroupEntry (α : Type) where
  member : α
  group : String
  lab : String
  marks : String
deriving DecidableEq

/-- The entry builder of _build_mech_groups, src/main.py lines 366-367. -/
def mechEntry {α : Type} (s : α) (letter : String) : GroupEntry α :=
  ⟨s, "Group " ++ letter, "Mechatronics Lab", ""⟩

/-- Model of _build_mech_groups, src/main.py lines 361-372: split the shuffled pool
at half + remainder, Group A receiving the first slice. -/
def build_mech_groups {α : Type} (pool : List α) :
    List (String × List (GroupEntry α)) :=
  let half := pool.length / 2
  let rem := pool.length % 2
  [("Group A", (pool.take (half + rem)).map (fun s => mechEntry s ("A"))),
   ("Group B", (pool.drop (half + rem)).map (fun s => mechEntry s ("B")))]

/-- The entry builder of _build_renew_groups, src/main.py lines 382-383. -/
def renewEntry {α : Type} (s : α) (letter : String) : GroupEntry α :=
  ⟨s, "Group " ++ letter, "Renewable Energy Systems Lab", ""⟩

/-- The size list of _build_renew_groups, src/main.py line 380:
base + (1 if i < extra else 0) for i in range(3). -/
def renewSizes (n : Nat) : List Nat :=
  (List.range 3).map (fun i => n / 3 + if i < n % 3 then 1 else 0)

/-- Consecutive slicing pool[idx : idx + size] with idx accumulating the
previous sizes, as in src/main.py lines 385-389. -/
def sliceBySizes {α : Type} : List Nat → List α → List (List α)
  | [], _ => []
  | s :: rest, pool => pool.take s :: sliceBySizes rest (pool.drop s)

/-- Model of _build_renew_groups, src/main.py lines 375-390: slice the shuffled
pool by the balanced sizes and label the slices A, B, C in order. -/
def build_renew_groups {α : Type} (pool : List α) :
    List (String × List (GroupEntry α)) :=
  (List.zip ["A", "B", "C"] (sliceBySizes (renewSizes pool.length) pool)).map
    (fun p => ("Group " ++ p.1, p.2.map (fun s => renewEntry s p.1)))

/-- All entries across the groups of a group set, in group order. -/
def groupMembers {α : Type} (gs : List (String × List (GroupEntry α))) :
    List (GroupEntry α) :=
  (gs.map (fun g => g.2)).flatten

/-- The participants carried by a group set: the member field of every entry
across all groups. -/
def participants {α : Type} (gs : List (String × List (GroupEntry α))) :
    List α :=
  (groupMembers gs).map (fun e => e.member)

/-- The balanced size pattern claimed by the spec (section 4.4): with
base = n / k and remainder = n % k, the first remainder groups receive
base + 1 members and the rest receive base. -/
def balancedSizes (k n : Nat) : List Nat :=
  (List.range k).map (fun i => n / k + if i < n % k then 1 else 0)

/- ──────────────────────── Byte-level filesystem model ────────────────────────
   For the atomicity claims about _write (src/main.py lines 285-297) and the
   in-place writes of restore_backup (src/main.py lines 459-463).  A filesystem
   maps a path to the byte string of the file stored there, if any. -/

/-- A filesystem: path to file contents, none when the file does not exist. -/
abbrev FileSys : Type := String → Option String

/-- Create, overwrite, or (with none) remove the file at a path. -/
def fsSet (fs : FileSys) (p : String) (v : Option String) : FileSys :=
  fun q => if q = p then v else fs q

/-- The temporary path path + ".tmp" used by _write, src/main.py line 287. -/
def tmpPath (path : String) : String := path ++ (".tmp")

/-- The first k bytes of a byte string: the data a partly completed write has
emitted so far. -/
def strTake (data : String) (k : Nat) : String := ⟨data.data.take k⟩

/-- The filesystem after json.dump has emitted k bytes of the serialized
document into the temporary file (src/main.py lines 289-290). -/
def writeMidDump (fs : FileSys) (path data : String) (k : Nat) : FileSys :=
  fsSet fs (tmpPath path) (some (strTake data k))

/-- The filesystem after json.dump finished but before os.replace. -/
def writeTmpDone (fs : FileSys) (path data : String) : FileSys :=
  fsSet fs (tmpPath path) (some data)

/-- The filesystem after os.replace(tmp, path), src/main.py line 291: the
temporary file is atomically renamed onto the destination. -/
def writeReplaced (fs : FileSys) (path data : String) : FileSys :=
  fsSet (fsSet fs (tmpPath path) none) path (some data)

/-- The filesystem after the finally clause removed a leftover temporary file
following a failure during json.dump (src/main.py lines 292-297). -/
def writeAborted (fs : FileSys) (path : String) : FileSys :=
  fsSet fs (tmpPath path) none

/-- Every filesystem state _write can pass through when asked to replace
`path` with `data`, in order: initial; mid-dump with k bytes written to the
temporary file; dump finished; renamed into place; aborted-and-cleaned. -/
def writeStates (fs : FileSys) (path data : String) (k : Nat) : List FileSys :=
  [fs, writeMidDump fs path data k, writeTmpDone fs path data,
   writeReplaced fs path data, writeAborted fs path]

/-- The filesystem after open(dest, "wb") truncated the destination during
restore_backup, src/main.py line 462. -/
def restoreTrunc (fs : FileSys) (dest : String) : FileSys :=
  fsSet fs dest (some (""))

/-- The filesystem after the restore write has emitted k bytes of the archive
entry directly into the destination file, src/main.py line 463. -/
def restoreMidWrite (fs : FileSys) (dest bytes : String) (k : Nat) : FileSys :=
  fsSet fs dest (some (strTake bytes k))

/-- The filesystem after the restore write completed. -/
def restoreDone (fs : FileSys) (dest bytes : String) : FileSys :=
  fsSet fs dest (some bytes)

/-- Every filesystem state the per-document write of restore_backup passes
through: initial; truncated; k bytes written in place; complete. -/
def restoreWriteStates (fs : FileSys) (dest bytes : String) (k : Nat) :
    List FileSys :=
  [fs, restoreTrunc fs dest, restoreMidWrite fs dest bytes k,
   restoreDone fs dest bytes]

/-- State i of the list of filesystem states, read at path q. -/
def stateAt (l : List FileSys) (i : Nat) (q : String) : Option (Option String) :=
  (l.get? i).map (fun s => s q)

/- ──────────────────────── JSON document-store model ────────────────────────
   For the backup/restore claims.  A document's bytes either parse as a JSON
   value or they do not; JSON serialization is injective and parsing inverts
   it, so file contents are modelled as a parsed value or an uninterpreted invalid
   byte string.  The store is the ee_data directory: a list of
   (file name, contents) pairs. -/

/-- A JSON value as this application uses them: null, strings, arrays,
objects (numbers never occur in the persisted documents). -/
inductive JVal where
  | jnull
  | jstr (s : String)
  | jarr (xs : List JVal)
  | jobj (fields : List (String × JVal))

/-- File contents: bytes that parse as the JSON value v, or bytes that do not
parse as JSON at all. -/
inductive Content where
  | json (v : JVal)
  | invalid (raw : String)

/-- The data directory. -/
abbrev Store : Type := List (String × Content)

def STUDENTS_FILE : String := "students.json"
def MECH_FILE : String := "mech_groups.json"
def RENEW_FILE : String := "renew_groups.json"
def STATE_FILE : String := "app_state.json"
def LOG_FILE : String := "activity_log.json"

/-- Raw contents of the named file, if it exists. -/
def storeGet (st : Store) (name : String) : Option Content :=
  (st.find? (fun e => e.1 == name)).map (fun e => e.2)

/-- Overwrite the named file, or create it at the end of the directory. -/
def storeSet (st : Store) (name : String) (c : Content) : Store :=
  if st.any (fun e => e.1 == name) then
    st.map (fun e => if e.1 == name then (name, c) else e)
  else st ++ [(name, c)]

/-- The file names of the directory, in listing order. -/
def keysOf (st : Store) : List String := st.map (fun e => e.1)

/-- Python name.endswith(".json"). -/
def endsJson (name : String) : Bool := (".json").data.isSuffixOf name.data

/-- Model of _read, src/main.py lines 300-306: parse the file, returning none when
it is missing or its bytes are not valid JSON. -/
def readDoc (st : Store) (name : String) : Option JVal :=
  match storeGet st name with
  | some (.json v) => some v
  | _ => none

/-- Python truthiness of a parsed JSON value, as used by the `or` defaults. -/
def jTruthy : JVal → Bool
  | .jnull => false
  | .jstr s => !s.isEmpty
  | .jarr xs => !xs.isEmpty
  | .jobj fields => !fields.isEmpty

/-- Python `_read(path) or default`: the parsed value when present and truthy,
otherwise the default. -/
def pyOrDefault (o : Option JVal) (dflt : JVal) : JVal :=
  match o with
  | some w => if jTruthy w then w else dflt
  | none => dflt

/-- Python dict assignment d[key] = v: update the binding in place, or append
a new one at the end (insertion order preserved). -/
def setField (fields : List (String × JVal)) (key : String) (v : JVal) :
    List (String × JVal) :=
  if fields.any (fun p => p.1 == key) then
    fields.map (fun p => if p.1 == key then (key, v) else p)
  else fields ++ [(key, v)]

/-- One activity-log record, src/main.py lines 313-317. -/
def logEntry (event : String) (detail : JVal) (ts : String) : JVal :=
  .jobj [("event", .jstr event), ("detail", detail), ("timestamp", .jstr ts)]

/-- The log cap of src/main.py lines 318-319: keep the most recent 2000
entries. -/
def logTruncate (xs : List JVal) : List JVal :=
  if 2000 < xs.length then xs.drop (xs.length - 2000) else xs

/-- log_event from src/main.py lines 309-322: read the log with an empty-list
default, append a new record, truncate, and write back.  Any exception —
in particular .append on a value that parsed to a non-list — is swallowed,
leaving the store unchanged. -/
def log_event (st : Store) (event : String) (detail : JVal) (ts : String) :
    Store :=
  match pyOrDefault (readDoc st LOG_FILE) (.jarr []) with
  | .jarr xs =>
      storeSet st LOG_FILE (.json (.jarr (logTruncate (xs ++ [logEntry event detail ts]))))
  | _ => st

/- ──────────────────────────── Backup and restore ────────────────────────────
   src/main.py lines 413-467.  The zip archive is a list of
   (entry name, entry bytes) pairs; entry bytes are Content like file
   contents.  Writing the archive file into ee_backups and the two timestamp
   strings are outside the document store and are passed in as parameters. -/

/-- create_backup from src/main.py lines 413-433: archive every .json file of
the data directory, then set last_backup in the app state (a TypeError when
the state parsed to a truthy non-dict propagates, modelled as none), then log
the event.  Returns the archive together with the updated store. -/
def create_backup (st : Store) (label ts : String) :
    Option (List (String × Content) × Store) :=
  let archive := st.filter (fun e => endsJson e.1)
  match pyOrDefault (readDoc st STATE_FILE) (.jobj []) with
  | .jobj fields =>
      let st1 := storeSet st STATE_FILE
        (.json (.jobj (setField fields ("last_backup") (.jstr ts))))
      some (archive, log_event st1 ("backup_created")
        (.jobj [("label", .jstr label)]) ts)
  | _ => none

/-- The detail payload logged by restore_backup, src/main.py line 464: the
names of every archive entry. -/
def filesDetail (ar : List (String × Content)) : JVal :=
  .jobj [("files", .jarr (ar.map (fun e => .jstr e.1)))]

/-- restore_backup from src/main.py lines 452-467: fail (store untouched)
unless some entry name ends in .json; otherwise copy the raw bytes of every
.json entry into the equally named data file, then log the event. -/
def restore_backup (ar : List (String × Content)) (st : Store) (ts : String) :
    Bool × Store :=
  if ar.any (fun e => endsJson e.1) then
    let st1 := ar.foldl
      (fun acc e => if endsJson e.1 then storeSet acc e.1 e.2 else acc) st
    (true, log_event st1 ("backup_restored") (filesDetail ar) ts)
  else (false, st)

/-- A data directory holding the five documents of init_storage
(src/main.py lines 269-282) with the given contents. -/
def mkStore (cs cm cr cst cl : Content) : Store :=
  [(STUDENTS_FILE, cs), (MECH_FILE, cm), (RENEW_FILE, cr),
   (STATE_FILE, cst), (LOG_FILE, cl)]

/-- The file names of the freshly initialised data directory. -/
def stdKeys : List String :=
  [STUDENTS_FILE, MECH_FILE, RENEW_FILE, STATE_FILE, LOG_FILE]

/-- The store seeded by init_storage, src/main.py lines 273-279. -/
def initStore : Store :=
  mkStore (.json (.jarr []))
    (.json (.jobj [("Group A", .jarr []), ("Group B", .jarr [])]))
    (.json (.jobj [("Group A", .jarr []), ("Group B", .jarr []), ("Group C", .jarr [])]))
    (.json (.jobj [("last_backup", .jnull), ("last_grouping", .jnull), ("version", .jstr ("1.0"))]))
    (.json (.jarr []))

/-- Take a backup and immediately restore from it: the store produced by
restore_backup applied to the archive create_backup returned. -/
def roundTrip (st : Store) (label ts1 ts2 : String) : Option Store :=
  (create_backup st label ts1).map (fun p => (restore_backup p.1 p.2 ts2).2)

/-- Length of a document that parsed to a JSON array, a projection used to
distinguish concrete stores. -/
def optJarrLen (o : Option JVal) : Option Nat :=
  match o with
  | some (.jarr xs) => some xs.length
  | _ => none

/-- An uploaded archive holding a students.json entry whose bytes are not
valid JSON. -/
def badArchive : List (String × Content) :=
  [(STUDENTS_FILE, .invalid ("not json at all"))]

/- ─────────────────── Fixtures and claim-level properties ─────────────────── -/

/-- A filesystem holding a previously committed students document. -/
def fsOld : FileSys :=
  fun q => if q = STUDENTS_FILE then some ("OLD") else none

/-- The balance property of one partition run (claim C1): both labs produce
their groups in label order with the sizes base + 1 for the first remainder
groups and base for the rest, the sizes sum to the pool size, and any two
group sizes differ by at most one. -/
abbrev BalancedPartition {α : Type} (pool : List α) : Prop :=
  (build_mech_groups pool).map (fun g => g.1) = ["Group A", "Group B"] ∧
  (build_renew_groups pool).map (fun g => g.1) = ["Group A", "Group B", "Group C"] ∧
  (build_mech_groups pool).map (fun g => g.2.length) = balancedSizes 2 pool.length ∧
  (build_renew_groups pool).map (fun g => g.2.length) = balancedSizes 3 pool.length ∧
  (balancedSizes 2 pool.length).sum = pool.length ∧
  (balancedSizes 3 pool.length).sum = pool.length ∧
  (∀ a ∈ balancedSizes 2 pool.length, ∀ b ∈ balancedSizes 2 pool.length, a ≤ b + 1) ∧
  (∀ a ∈ balancedSizes 3 pool.length, ∀ b ∈ balancedSizes 3 pool.length, a ≤ b + 1)

/-- The exact-cover property of one partition run (claim C2): for both labs,
the participants collected across all output groups are a permutation of the
input student list, and for every value the per-group occurrence counts sum
to its count in the input list. -/
abbrev ExactCover {α : Type} [DecidableEq α] (students pool : List α) : Prop :=
  List.Perm (participants (build_mech_groups pool)) students ∧
  List.Perm (participants (build_renew_groups pool)) students ∧
  (∀ x : α, ((build_mech_groups pool).map
    (fun g => (g.2.filter (fun e => e.member == x)).length)).sum = students.count x) ∧
  (∀ x : α, ((build_renew_groups pool).map
    (fun g => (g.2.filter (fun e => e.member == x)).length)).sum = students.count x)

/-- The backup/restore round trip property as the code actually delivers it
(amended claim C4): on a store whose app state is a JSON object and whose
activity log is a JSON array of fewer than 2000 records, the restore succeeds,
the student list, both group sets, and the app state come back byte-identical
to their state when the archive was taken, and the activity log comes back
identical with exactly one backup_restored record appended to it. -/
abbrev RoundTripRestores (cs cm cr : Content) (sfs : List (String × JVal))
    (xs : List JVal) (label ts1 ts2 : String) : Prop :=
  ∃ ar st1,
    create_backup (mkStore cs cm cr (.json (.jobj sfs)) (.json (.jarr xs))) label ts1
      = some (ar, st1) ∧
    restore_backup ar st1 ts2 =
      (true, mkStore cs cm cr (.json (.jobj sfs))
        (.json (.jarr (xs ++ [logEntry ("backup_restored") (filesDetail ar) ts2]))))

/- ───────────────────────────── Helper lemmas ───────────────────────────── -/

theorem tmpPath_ne (path : String) : tmpPath path ≠ path := by
  intro h
  have h2 := congrArg String.length h
  rw [tmpPath, String.length_append] at h2
  have h3 : (".tmp").length = 4 := rfl
  omega

theorem fsSet_self (fs : FileSys) (p : String) (v : Option String) :
    fsSet fs p v p = v := by
  simp [fsSet]

theorem fsSet_other (fs : FileSys) (p q : String) (v : Option String)
    (h : q ≠ p) : fsSet fs p v q = fs q := by
  simp [fsSet, h]

/- ───────────────────────────────── C3 ───────────────────────────────── -/

/-- Claim C3: _write puts the new contents into a temporary file and then
renames it onto the document path.  In every state reached before the rename —
initial, mid-dump with any number of bytes emitted, dump complete, and the
cleanup state after an aborted dump — the committed document at `path` reads
back exactly as before, and in every state _write can pass through a reader
of `path` sees either the old contents or the complete new contents, never a
partial write. -/
theorem atomic_write_protects_committed (fs : FileSys) (path data : String)
    (k : Nat) :
    writeMidDump fs path data k path = fs path ∧
    writeTmpDone fs path data path = fs path ∧
    writeAborted fs path path = fs path ∧
    writeReplaced fs path data path = some data ∧
    ∀ i : Nat,
      stateAt (writeStates fs path data k) i path = none ∨
      stateAt (writeStates fs path data k) i path = some (fs path) ∨
      stateAt (writeStates fs path data k) i path = some (some data) := by
  have hne : path ≠ tmpPath path := Ne.symm (tmpPath_ne path)
  have h1 : writeMidDump fs path data k path = fs path :=
    fsSet_other fs (tmpPath path) path _ hne
  have h2 : writeTmpDone fs path data path = fs path :=
    fsSet_other fs (tmpPath path) path _ hne
  have h3 : writeAborted fs path path = fs path :=
    fsSet_other fs (tmpPath path) path _ hne
  have h4 : writeReplaced fs path data path = some data :=
    fsSet_self _ path _
  refine ⟨h1, h2, h3, h4, ?_⟩
  intro i
  match i with
  | 0 => right; left; rfl
  | 1 => right; left; simp [stateAt, writeStates, h1]
  | 2 => right; left; simp [stateAt, writeStates, h2]
  | 3 => right; right; simp [stateAt, writeStates, h4]
  | 4 => right; left; simp [stateAt, writeStates, h3]
  | (n + 5) => left; simp [stateAt, writeStates]

/- ───────────────────────────────── C8 ───────────────────────────────── -/

/-- Claim C8, counterexample: restoring a students.json entry with bytes NEW
over a committed document OLD passes through the state in which one byte has
been written in place; there the document reads N — neither the old nor the
new contents, a partial write — while the temporary path of the atomic _write
mechanism is never touched in any state of the restore write. -/
theorem restore_write_mid_state_cx :
    stateAt (restoreWriteStates fsOld STUDENTS_FILE ("NEW") 1) 2 STUDENTS_FILE
      = some (some ("N")) ∧
    fsOld STUDENTS_FILE = some ("OLD") ∧
    restoreDone fsOld STUDENTS_FILE ("NEW") STUDENTS_FILE = some ("NEW") ∧
    (("N") : String) ≠ ("OLD") ∧
    (("N") : String) ≠ ("NEW") ∧
    stateAt (restoreWriteStates fsOld STUDENTS_FILE ("NEW") 1) 0
      (tmpPath STUDENTS_FILE) = some none ∧
    stateAt (restoreWriteStates fsOld STUDENTS_FILE ("NEW") 1) 1
      (tmpPath STUDENTS_FILE) = some none ∧
    stateAt (restoreWriteStates fsOld STUDENTS_FILE ("NEW") 1) 2
      (tmpPath STUDENTS_FILE) = some none ∧
    stateAt (restoreWriteStates fsOld STUDENTS_FILE ("NEW") 1) 3
      (tmpPath STUDENTS_FILE) = some none := by
  refine ⟨rfl, rfl, rfl, by decide, by decide, rfl, rfl, rfl, rfl⟩

/-- Claim C8, amended: restore_backup replaces each document by truncating the
destination file and writing the archived bytes directly in place — not via
the temporary-file-plus-rename mechanism of _write, whose temporary path is
never written.  After truncation the document reads empty, after k bytes it
reads exactly those k bytes, and only at completion does it read the full
archived contents. -/
theorem restore_write_in_place (fs : FileSys) (dest bytes : String) (k : Nat) :
    restoreTrunc fs dest dest = some ("") ∧
    restoreMidWrite fs dest bytes k dest = some (strTake bytes k) ∧
    restoreDone fs dest bytes dest = some bytes ∧
    restoreTrunc fs dest (tmpPath dest) = fs (tmpPath dest) ∧
    restoreMidWrite fs dest bytes k (tmpPath dest) = fs (tmpPath dest) ∧
    restoreDone fs dest bytes (tmpPath dest) = fs (tmpPath dest) := by
  refine ⟨fsSet_self _ _ _, fsSet_self _ _ _, fsSet_self _ _ _, ?_, ?_, ?_⟩ <;>
    exact fsSet_other fs dest _ _ (tmpPath_ne dest)

/- ───────────────────────────────── C9 ───────────────────────────────── -/

/-- Claim C9: restoring an archive whose students.json entry holds bytes that
are not valid JSON reports success and copies the bytes verbatim into the
store; the document existed and was readable before the restore, afterwards
reading it parses to nothing, and the `or []` default at every call site
yields the empty student list instead of restored data. -/
theorem restore_copies_invalid_json_verbatim :
    (restore_backup badArchive initStore ("t")).1 = true ∧
    storeGet (restore_backup badArchive initStore ("t")).2 STUDENTS_FILE
      = some (.invalid ("not json at all")) ∧
    readDoc initStore STUDENTS_FILE = some (.jarr []) ∧
    readDoc (restore_backup badArchive initStore ("t")).2 STUDENTS_FILE = none ∧
    pyOrDefault (readDoc (restore_backup badArchive initStore ("t")).2 STUDENTS_FILE)
      (.jarr []) = .jarr [] := by
  exact ⟨rfl, rfl, rfl, rfl, rfl⟩

/- ─────────────────────────── Grouping lemmas ─────────────────────────── -/

theorem renewSizes_explicit (n : Nat) :
    renewSizes n = [n / 3 + (if 0 < n % 3 then 1 else 0),
      n / 3 + (if 1 < n % 3 then 1 else 0), n / 3 + (if 2 < n % 3 then 1 else 0)] := rfl

theorem balancedSizes_two (n : Nat) :
    balancedSizes 2 n = [n / 2 + (if 0 < n % 2 then 1 else 0),
      n / 2 + (if 1 < n % 2 then 1 else 0)] := rfl

theorem balancedSizes_three (n : Nat) : balancedSizes 3 n = renewSizes n := rfl

theorem mech_group_sizes {α : Type} (pool : List α) :
    (build_mech_groups pool).map (fun g => g.2.length) =
      [pool.length / 2 + pool.length % 2, pool.length / 2] := by
  simp only [build_mech_groups, List.map_cons, List.map_nil, List.length_map,
    List.length_take, List.length_drop]
  have h1 : (pool.length / 2 + pool.length % 2) ⊓ pool.length
      = pool.length / 2 + pool.length % 2 := by omega
  have h2 : pool.length - (pool.length / 2 + pool.length % 2)
      = pool.length / 2 := by omega
  rw [h1, h2]

theorem sliceBySizes_flatten {α : Type} (ss : List Nat) (pool : List α) :
    (sliceBySizes ss pool).flatten = pool.take ss.sum := by
  induction ss generalizing pool with
  | nil => simp [sliceBySizes]
  | cons s rest ih =>
      simp only [sliceBySizes, List.flatten_cons, ih, List.sum_cons, List.take_add]

theorem renewSizes_sum (n : Nat) : (renewSizes n).sum = n := by
  rw [renewSizes_explicit]
  have h3 : n % 3 = 0 ∨ n % 3 = 1 ∨ n % 3 = 2 := by omega
  rcases h3 with h | h | h <;> simp [h] <;> omega

theorem build_renew_groups_slices {α : Type} (pool : List α) :
    build_renew_groups pool =
      [("Group A", (pool.take (pool.length / 3 + (if 0 < pool.length % 3 then 1 else 0))).map
          (fun s => renewEntry s ("A"))),
       ("Group B", ((pool.drop (pool.length / 3 + (if 0 < pool.length % 3 then 1 else 0))).take
            (pool.length / 3 + (if 1 < pool.length % 3 then 1 else 0))).map
          (fun s => renewEntry s ("B"))),
       ("Group C", (((pool.drop (pool.length / 3 + (if 0 < pool.length % 3 then 1 else 0))).drop
            (pool.length / 3 + (if 1 < pool.length % 3 then 1 else 0))).take
            (pool.length / 3 + (if 2 < pool.length % 3 then 1 else 0))).map
          (fun s => renewEntry s ("C")))] := rfl

theorem renew_group_sizes {α : Type} (pool : List α) :
    (build_renew_groups pool).map (fun g => g.2.length) = renewSizes pool.length := by
  rw [build_renew_groups_slices, renewSizes_explicit]
  simp only [List.map_cons, List.map_nil, List.length_map, List.length_take,
    List.length_drop]
  have h3 : pool.length % 3 = 0 ∨ pool.length % 3 = 1 ∨ pool.length % 3 = 2 := by omega
  have e0 : (pool.length / 3 + (if 0 < pool.length % 3 then 1 else 0)) ⊓ pool.length
      = pool.length / 3 + (if 0 < pool.length % 3 then 1 else 0) := by
    rcases h3 with h | h | h <;> simp [h] <;> omega
  have e1 : (pool.length / 3 + (if 1 < pool.length % 3 then 1 else 0)) ⊓
      (pool.length - (pool.length / 3 + (if 0 < pool.length % 3 then 1 else 0)))
      = pool.length / 3 + (if 1 < pool.length % 3 then 1 else 0) := by
    rcases h3 with h | h | h <;> simp [h] <;> omega
  have e2 : (pool.length / 3 + (if 2 < pool.length % 3 then 1 else 0)) ⊓
      (pool.length - (pool.length / 3 + (if 0 < pool.length % 3 then 1 else 0)) -
        (pool.length / 3 + (if 1 < pool.length % 3 then 1 else 0)))
      = pool.length / 3 + (if 2 < pool.length % 3 then 1 else 0) := by
    rcases h3 with h | h | h <;> simp [h] <;> omega
  rw [e0, e1, e2]

theorem participants_mech {α : Type} (pool : List α) :
    participants (build_mech_groups pool) = pool := by
  simp only [participants, groupMembers, build_mech_groups, List.map_cons,
    List.map_nil, List.flatten_cons, List.flatten_nil, List.append_nil,
    List.map_append, List.map_map]
  have hA : ((fun e : GroupEntry α => e.member) ∘ fun s => mechEntry s ("A"))
      = fun s => s := rfl
  have hB : ((fun e : GroupEntry α => e.member) ∘ fun s => mechEntry s ("B"))
      = fun s => s := rfl
  rw [hA, hB, List.map_id', List.map_id', List.take_append_drop]

theorem participants_renew {α : Type} (pool : List α) :
    participants (build_renew_groups pool) = pool := by
  rw [participants, groupMembers, build_renew_groups_slices]
  simp only [List.map_cons, List.map_nil, List.flatten_cons, List.flatten_nil,
    List.append_nil, List.map_append, List.map_map]
  have hA : ((fun e : GroupEntry α => e.member) ∘ fun s => renewEntry s ("A"))
      = fun s => s := rfl
  have hB : ((fun e : GroupEntry α => e.member) ∘ fun s => renewEntry s ("B"))
      = fun s => s := rfl
  have hC : ((fun e : GroupEntry α => e.member) ∘ fun s => renewEntry s ("C"))
      = fun s => s := rfl
  rw [hA, hB, hC, List.map_id', List.map_id', List.map_id']
  have t1 := (List.take_add
    (pool.drop (pool.length / 3 + (if 0 < pool.length % 3 then 1 else 0)))
    (pool.length / 3 + (if 1 < pool.length % 3 then 1 else 0))
    (pool.length / 3 + (if 2 < pool.length % 3 then 1 else 0))).symm
  rw [t1]
  have t2 := (List.take_add pool
    (pool.length / 3 + (if 0 < pool.length % 3 then 1 else 0))
    ((pool.length / 3 + (if 1 < pool.length % 3 then 1 else 0)) +
      (pool.length / 3 + (if 2 < pool.length % 3 then 1 else 0)))).symm
  rw [t2]
  have hsum : pool.length / 3 + (if 0 < pool.length % 3 then 1 else 0) +
      (pool.length / 3 + (if 1 < pool.length % 3 then 1 else 0) +
        (pool.length / 3 + (if 2 < pool.length % 3 then 1 else 0))) = pool.length := by
    have h3 : pool.length % 3 = 0 ∨ pool.length % 3 = 1 ∨ pool.length % 3 = 2 := by omega
    rcases h3 with h | h | h <;> simp [h] <;> omega
  rw [hsum, List.take_length]

theorem member_count_sum {α : Type} [DecidableEq α]
    (gs : List (String × List (GroupEntry α))) (x : α) :
    (gs.map (fun g => (g.2.filter (fun e => e.member == x)).length)).sum
      = (participants gs).count x := by
  induction gs with
  | nil => simp [participants, groupMembers]
  | cons g gs ih =>
      have hp : participants (g :: gs) = g.2.map (fun e => e.member) ++ participants gs := by
        simp [participants, groupMembers]
      rw [List.map_cons, List.sum_cons, ih, hp, List.count_append]
      congr 1
      rw [List.count_eq_countP, List.countP_map, ← List.countP_eq_length_filter]
      rfl

/- ───────────────────────────────── C1 ───────────────────────────────── -/

/-- Claim C1: on any pool of at least MIN_STUDENTS students, both labs
produce their groups in label order (two groups for Mechatronics, three for
Renewable Energy); with base = N div K and remainder = N mod K the first
remainder groups receive base + 1 members and the rest base; the sizes sum to
N and any two group sizes differ by at most one. -/
theorem partition_balanced_sizes {α : Type} (pool : List α)
    (_h : MIN_STUDENTS ≤ pool.length) : BalancedPartition pool := by
  have h2 : pool.length % 2 = 0 ∨ pool.length % 2 = 1 := by omega
  have h3 : pool.length % 3 = 0 ∨ pool.length % 3 = 1 ∨ pool.length % 3 = 2 := by omega
  refine ⟨rfl, ?_, ?_, ?_, ?_, ?_, ?_, ?_⟩
  · rw [build_renew_groups_slices]; rfl
  · rw [mech_group_sizes, balancedSizes_two]
    rcases h2 with h2 | h2 <;> simp [h2]
  · rw [renew_group_sizes, balancedSizes_three]
  · rw [balancedSizes_two]
    rcases h2 with h2 | h2 <;> simp [h2] <;> omega
  · rw [balancedSizes_three, renewSizes_sum]
  · intro a ha b hb
    rw [balancedSizes_two] at ha hb
    rcases h2 with h2 | h2 <;> simp [h2] at ha hb <;> omega
  · intro a ha b hb
    rw [balancedSizes_three, renewSizes_explicit] at ha hb
    rcases h3 with h3 | h3 | h3 <;> simp [h3] at ha hb <;> omega

/-- Witness for C1 at a pool of five students. -/
theorem partition_balanced_sizes_w :
    MIN_STUDENTS ≤ ([1, 2, 3, 4, 5] : List Nat).length ∧
    BalancedPartition ([1, 2, 3, 4, 5] : List Nat) :=
  ⟨by decide, partition_balanced_sizes ([1, 2, 3, 4, 5] : List Nat) (by decide)⟩

/- ───────────────────────────────── C2 ───────────────────────────────── -/

/-- Claim C2: for any pool that is a permutation of a student list of at
least MIN_STUDENTS students — the shuffle drawn by random.sample — both labs
distribute exactly the input participants: the participants collected across
all output groups are a permutation of the input list (no duplicates, no
omissions), and for every value the per-group occurrence counts sum to its
count in the input list, so each participant of a duplicate-free input sits
in exactly one group. -/
theorem partition_exact_cover {α : Type} [DecidableEq α] (students pool : List α)
    (hperm : List.Perm pool students) (_h : MIN_STUDENTS ≤ students.length) :
    ExactCover students pool := by
  refine ⟨?_, ?_, ?_, ?_⟩
  · rw [participants_mech]; exact hperm
  · rw [participants_renew]; exact hperm
  · intro x; rw [member_count_sum, participants_mech]; exact hperm.count_eq x
  · intro x; rw [member_count_sum, participants_renew]; exact hperm.count_eq x

/-- Witness for C2 at a three-student list and a nontrivial shuffle of it. -/
theorem partition_exact_cover_w :
    List.Perm ([3, 1, 2] : List Nat) ([1, 2, 3] : List Nat) ∧
    MIN_STUDENTS ≤ ([1, 2, 3] : List Nat).length ∧
    ExactCover ([1, 2, 3] : List Nat) ([3, 1, 2] : List Nat) :=
  ⟨by decide, by decide, partition_exact_cover _ _ (by decide) (by decide)⟩

/- ───────────────────────────────── C5 ───────────────────────────────── -/

/-- Claim C5: when a registration request carries a validated index equal to a
stored student's index, or a validated name equal to a stored student's name
up to case, the request is rejected as a duplicate and the stored student
list — in particular its length — is unchanged. -/
theorem duplicate_registration_rejected (students : List Student)
    (rawName rawIndex : List Char) (ts : String) (n i : List Char)
    (hn : validate_name rawName = some n) (hi : validate_index rawIndex = some i)
    (hdup : (∃ s ∈ students, s.index = i) ∨
      (∃ s ∈ students, pyLowerStr s.name = pyLowerStr n)) :
    register students rawName rawIndex ts = (.duplicate, students) ∧
    (register students rawName rawIndex ts).2.length = students.length := by
  have hd : check_duplicate students i n = true := by
    rw [check_duplicate, Bool.or_eq_true, List.any_eq_true, List.any_eq_true]
    rcases hdup with ⟨s, hs, he⟩ | ⟨s, hs, he⟩
    · exact Or.inl ⟨s, hs, by simp [he]⟩
    · exact Or.inr ⟨s, hs, by simp [he]⟩
  have hr : register students rawName rawIndex ts = (.duplicate, students) := by
    unfold register
    rw [hn, hi]
    simp [hd]
  exact ⟨hr, by rw [hr]⟩

/-- Witness for C5: registering the index already held by the single stored
student (submitted lowercase, normalizing to the stored uppercase form) is
rejected and leaves the list unchanged. -/
theorem duplicate_registration_rejected_w :
    validate_name (("Ama Mensah").toList) = some (("Ama Mensah").toList) ∧
    validate_index ((" stubtech000001").toList) = some (("STUBTECH000001").toList) ∧
    ((∃ s ∈ [Student.mk (("Kofi Owusu").toList) (("STUBTECH000001").toList) ("d1")],
        s.index = ("STUBTECH000001").toList) ∨
      (∃ s ∈ [Student.mk (("Kofi Owusu").toList) (("STUBTECH000001").toList) ("d1")],
        pyLowerStr s.name = pyLowerStr (("Ama Mensah").toList))) ∧
    register [Student.mk (("Kofi Owusu").toList) (("STUBTECH000001").toList) ("d1")]
        (("Ama Mensah").toList) ((" stubtech000001").toList) ("d2")
      = (.duplicate, [Student.mk (("Kofi Owusu").toList) (("STUBTECH000001").toList) ("d1")]) := by
  refine ⟨by decide, by decide, by decide, ?_⟩
  exact (duplicate_registration_rejected
    [Student.mk (("Kofi Owusu").toList) (("STUBTECH000001").toList) ("d1")]
    (("Ama Mensah").toList) ((" stubtech000001").toList) ("d2")
    (("Ama Mensah").toList) (("STUBTECH000001").toList)
    (by decide) (by decide) (by decide)).1

/- ───────────────────────────────── C6 ───────────────────────────────── -/

/-- Claim C6, counterexample: the raw name "A." is accepted by validate_name
(returned unchanged), yet its normalization contains a period, which the
spec's character set — letters, spaces, hyphens, apostrophes — excludes; so
acceptance is not equivalent to the spec's predicate. -/
theorem validate_name_accepts_period_cx :
    validate_name (['A', '.']) = some (['A', '.']) ∧
    specNameOK (collapseWS (['A', '.'])) = false := by decide

theorem isNameTailChar_of_letter (c : Char) (h : isAsciiLetter c = true) :
    isNameTailChar c = true := by
  simp [isNameTailChar, h]

theorem codeNameOK_iff (cs : List Char) :
    codeNameOK cs = true ↔ (2 ≤ cs.length ∧ matchNamePattern cs = true) := by
  cases cs with
  | nil => simp [codeNameOK, matchNamePattern]
  | cons c rest =>
      cases rest with
      | nil => simp [codeNameOK, matchNamePattern]
      | cons d rest2 =>
          simp only [codeNameOK, matchNamePattern, Bool.and_eq_true,
            decide_eq_true_eq, List.all_cons, List.length_cons,
            Bool.not_eq_true', List.isEmpty_iff, List.isEmpty_eq_false]
          constructor
          · rintro ⟨⟨hlen, hletter⟩, _, htail⟩
            exact ⟨hlen, ⟨hletter, by simp⟩, htail⟩
          · rintro ⟨hlen, ⟨hletter, _⟩, htail⟩
            exact ⟨⟨hlen, hletter⟩, isNameTailChar_of_letter c hletter, htail⟩

/-- Claim C6, amended: validate_name collapses internal whitespace and then
succeeds exactly when the normalized name has length at least 2, starts with
a letter, and contains only letters, spaces, hyphens, apostrophes, and
periods; on success it returns the normalized name. -/
theorem validate_name_amended (raw m : List Char) :
    validate_name raw = some m ↔
      (m = collapseWS raw ∧ codeNameOK (collapseWS raw) = true) := by
  simp only [validate_name]
  split_ifs with h1 h2
  · constructor
    · intro h; exact absurd h (by simp)
    · rintro ⟨_, hck⟩
      rw [codeNameOK_iff] at hck
      omega
  · constructor
    · intro h
      injection h with h
      exact ⟨h.symm, (codeNameOK_iff _).2 ⟨by omega, h2⟩⟩
    · rintro ⟨rfl, _⟩; rfl
  · constructor
    · intro h; exact absurd h (by simp)
    · rintro ⟨_, hck⟩
      rw [codeNameOK_iff] at hck
      exact absurd hck.2 h2

/- ───────────────────────────────── C7 ───────────────────────────────── -/

theorem matchIndex_iff_spec (cs : List Char) :
    matchIndexPattern cs ↔ specIndexOK cs := by
  constructor
  · rintro ⟨h14, h8, hd⟩
    refine ⟨cs.drop 8, ?_, ?_, hd⟩
    · conv_lhs => rw [← List.take_append_drop 8 cs]
      rw [h8]
    · rw [List.length_drop, h14]
  · rintro ⟨ds, rfl, h6, hd⟩
    have hlen : stubtechChars.length = 8 := rfl
    refine ⟨?_, ?_, ?_⟩
    · rw [List.length_append, hlen, h6]
    · rw [← hlen, List.take_left]
    · rw [← hlen, List.drop_left]; exact hd

/-- Claim C7: validate_index succeeds exactly on inputs whose trimmed and
upper-cased form is the literal STUBTECH followed by exactly six decimal
digits, and on success it returns that trimmed upper-cased form. -/
theorem validate_index_exact (raw m : List Char) :
    validate_index raw = some m ↔
      (m = pyStrip (pyUpperStr raw) ∧ specIndexOK m) := by
  simp only [validate_index]
  by_cases hm : matchIndexPattern (pyStrip (pyUpperStr raw))
  · rw [if_pos hm]
    constructor
    · intro h
      injection h with h
      subst h
      exact ⟨rfl, (matchIndex_iff_spec _).1 hm⟩
    · rintro ⟨rfl, _⟩; rfl
  · rw [if_neg hm]
    constructor
    · intro h; exact absurd h (by simp)
    · rintro ⟨rfl, hs⟩
      exact absurd ((matchIndex_iff_spec _).2 hs) hm

/- ───────────────────────────────── C10 ───────────────────────────────── -/

theorem dropWhile_of_all_neg {α : Type} (p : α → Bool) (l : List α)
    (h : ∀ c ∈ l, p c = false) : l.dropWhile p = l := by
  cases l with
  | nil => rfl
  | cons a l =>
      have ha : p a = false := h a (List.mem_cons_self a l)
      rw [List.dropWhile_cons, ha]
      simp

theorem pyStrip_of_all_nonspace (cs : List Char)
    (h : ∀ c ∈ cs, pyIsSpace c = false) : pyStrip cs = cs := by
  unfold pyStrip
  rw [dropWhile_of_all_neg _ _ h]
  rw [dropWhile_of_all_neg _ _ (fun c hc => h c (List.mem_reverse.mp hc))]
  exact List.reverse_reverse cs

theorem map_fixed {α : Type} (f : α → α) (l : List α)
    (h : ∀ c ∈ l, f c = c) : l.map f = l := by
  induction l with
  | nil => rfl
  | cons a l ih =>
      rw [List.map_cons, h a (List.mem_cons_self a l),
        ih (fun c hc => h c (List.mem_cons_of_mem a hc))]

theorem pyToUpper_fixed_of_digit (c : Char) (h : isAsciiDigit c = true) :
    pyToUpper c = c := by
  unfold isAsciiDigit at h
  have hh := of_decide_eq_true h
  unfold pyToUpper
  rw [if_neg (by omega)]

theorem pyIsSpace_false_of_digit (c : Char) (h : isAsciiDigit c = true) :
    pyIsSpace c = false := by
  unfold isAsciiDigit at h
  have hh := of_decide_eq_true h
  unfold pyIsSpace
  apply decide_eq_false
  intro hcon
  omega

theorem index_chars_fixed (cs : List Char) (h : specIndexOK cs) :
    (∀ c ∈ cs, pyToUpper c = c) ∧ (∀ c ∈ cs, pyIsSpace c = false) := by
  obtain ⟨ds, rfl, h6, hd⟩ := h
  have hstU : ∀ c ∈ stubtechChars, pyToUpper c = c := by decide
  have hstS : ∀ c ∈ stubtechChars, pyIsSpace c = false := by decide
  constructor
  · intro c hc
    rcases List.mem_append.mp hc with hc | hc
    · exact hstU c hc
    · exact pyToUpper_fixed_of_digit c (hd c hc)
  · intro c hc
    rcases List.mem_append.mp hc with hc | hc
    · exact hstS c hc
    · exact pyIsSpace_false_of_digit c (hd c hc)

/-- Claim C10: index normalization is idempotent — whenever validate_index
accepts raw input and returns the normalized index n, running validate_index
on n again succeeds and returns n unchanged. -/
theorem validate_index_idempotent (raw n : List Char)
    (h : validate_index raw = some n) : validate_index n = some n := by
  simp only [validate_index] at h ⊢
  by_cases hm : matchIndexPattern (pyStrip (pyUpperStr raw))
  · rw [if_pos hm] at h
    injection h with h
    subst h
    obtain ⟨hup, hns⟩ := index_chars_fixed _ ((matchIndex_iff_spec _).1 hm)
    simp only [pyUpperStr] at hup hns hm ⊢
    rw [map_fixed _ _ hup, pyStrip_of_all_nonspace _ hns, if_pos hm]
  · rw [if_neg hm] at h
    exact absurd h (by simp)

/-- Witness for C10: a lowercase submission normalizes to STUBTECH123456,
which validate_index maps to itself. -/
theorem validate_index_idempotent_w :
    validate_index (("stubtech123456").toList) = some (("STUBTECH123456").toList) ∧
    validate_index (("STUBTECH123456").toList) = some (("STUBTECH123456").toList) :=
  ⟨by decide, validate_index_idempotent (("stubtech123456").toList)
    (("STUBTECH123456").toList) (by decide)⟩

/- ───────────────────────────────── C4 ───────────────────────────────── -/

/-- Claim C4, counterexample: on the freshly initialised store, restoring the
archive that create_backup just produced does not bring every document back
to its backup-time contents — the activity log ends up with one
backup_restored record where the backup-time log was empty, because
restore_backup logs its own completion after writing the restored files. -/
theorem backup_roundtrip_log_differs_cx :
    (roundTrip initStore ("b") ("t1") ("t2")).map (fun s => readDoc s LOG_FILE)
      ≠ some (readDoc initStore LOG_FILE) := by
  intro h
  have hL : ((roundTrip initStore ("b") ("t1") ("t2")).map
      (fun s => readDoc s LOG_FILE)).map optJarrLen = some (some 1) := rfl
  rw [h] at hL
  have hR : ((some (readDoc initStore LOG_FILE)).map optJarrLen)
      = some (some 0) := rfl
  rw [hL] at hR
  injection hR with hR
  injection hR with hR
  exact absurd hR (by decide)

theorem create_backup_std (cs cm cr : Content) (sfs : List (String × JVal))
    (xs : List JVal) (label ts : String) :
    ∃ st1,
      create_backup (mkStore cs cm cr (.json (.jobj sfs)) (.json (.jarr xs))) label ts
        = some (mkStore cs cm cr (.json (.jobj sfs)) (.json (.jarr xs)), st1) ∧
      keysOf st1 = stdKeys := by
  rcases sfs with _ | ⟨p, ps⟩ <;> rcases xs with _ | ⟨x, xs⟩ <;> exact ⟨_, rfl, rfl⟩

theorem restore_backup_std (cs cm cr cst : Content) (xs : List JVal)
    (st1 : Store) (hk : keysOf st1 = stdKeys) (ts : String) :
    restore_backup (mkStore cs cm cr cst (.json (.jarr xs))) st1 ts
      = (true, mkStore cs cm cr cst
          (.json (.jarr (logTruncate (xs ++
            [logEntry ("backup_restored")
              (filesDetail (mkStore cs cm cr cst (.json (.jarr xs)))) ts]))))) := by
  rcases st1 with _ | ⟨⟨n1, y1⟩, st1⟩
  · simp [keysOf, stdKeys] at hk
  rcases st1 with _ | ⟨⟨n2, y2⟩, st1⟩
  · simp [keysOf, stdKeys] at hk
  rcases st1 with _ | ⟨⟨n3, y3⟩, st1⟩
  · simp [keysOf, stdKeys] at hk
  rcases st1 with _ | ⟨⟨n4, y4⟩, st1⟩
  · simp [keysOf, stdKeys] at hk
  rcases st1 with _ | ⟨⟨n5, y5⟩, st1⟩
  · simp [keysOf, stdKeys] at hk
  rcases st1 with _ | ⟨⟨n6, y6⟩, st1⟩
  case cons.mk.cons.mk.cons.mk.cons.mk.cons.mk.cons.mk =>
    simp [keysOf, stdKeys] at hk
  simp only [keysOf, stdKeys, List.map_cons, List.map_nil, List.cons.injEq,
    and_true, STUDENTS_FILE, MECH_FILE, RENEW_FILE, STATE_FILE, LOG_FILE] at hk
  obtain ⟨h1, h2, h3, h4, h5⟩ := hk
  subst h1
  subst h2
  subst h3
  subst h4
  subst h5
  rcases xs with _ | ⟨x, xs⟩ <;> rfl

/-- Claim C4, amended: restoring the archive returned by create_backup brings
the student list, both group-set documents, and the app state back to contents
identical to their state when the archive was taken; the activity log is also
restored to its backup-time contents but then receives exactly one
backup_restored record appended by the restore's own logging (stated for a
store whose app state parsed to a JSON object and whose log parsed to a JSON
array of fewer than 2000 records, so the append is not truncated). -/
theorem backup_roundtrip_amended (cs cm cr : Content) (sfs : List (String × JVal))
    (xs : List JVal) (label ts1 ts2 : String) (hlen : xs.length < 2000) :
    RoundTripRestores cs cm cr sfs xs label ts1 ts2 := by
  obtain ⟨st1, hcb, hk⟩ := create_backup_std cs cm cr sfs xs label ts1
  refine ⟨mkStore cs cm cr (.json (.jobj sfs)) (.json (.jarr xs)), st1, hcb, ?_⟩
  rw [restore_backup_std cs cm cr (.json (.jobj sfs)) xs st1 hk ts2]
  have hone : ([logEntry ("backup_restored")
      (filesDetail (mkStore cs cm cr (.json (.jobj sfs)) (.json (.jarr xs)))) ts2] :
        List JVal).length = 1 := rfl
  have hcon : ¬ (2000 < (xs ++ [logEntry ("backup_restored")
      (filesDetail (mkStore cs cm cr (.json (.jobj sfs)) (.json (.jarr xs)))) ts2]).length) := by
    rw [List.length_append, hone]
    omega
  unfold logTruncate
  rw [if_neg hcon]

/-- Witness for amended C4, at the freshly initialised document contents. -/
theorem backup_roundtrip_amended_w :
    ([] : List JVal).length < 2000 ∧
    RoundTripRestores (.json (.jarr []))
      (.json (.jobj [("Group A", .jarr []), ("Group B", .jarr [])]))
      (.json (.jobj [("Group A", .jarr []), ("Group B", .jarr []), ("Group C", .jarr [])]))
      [("last_backup", .jnull), ("last_grouping", .jnull), ("version", .jstr ("1.0"))]
      [] ("b") ("t1") ("t2") :=
  ⟨by decide, backup_roundtrip_amended _ _ _ _ _ _ _ _ (by decide)⟩
